import Mathlib

/-!
Shallow embedding of the spotify-playlist-mirror reconciliation engine.

The embedding follows the repository sources:
* `src/src/playlist-sync.ts` — the reconciliation engine `syncMirrorPlaylist`
  and its eligibility / lock predicates;
* the Spotify client module (`src/unnamed/part_000`, the file with
  `getSourcePlaylistTracks`, `getMirrorPlaylistTracks`,
  `addTracksToMirrorPlaylist`, `removeTracksFromMirrorPlaylist`,
  `getRecentlyPlayedTracks`).

Timestamps are modelled as `Int` milliseconds (JS `Date.getTime()`), and the
JS calendar computations `setFullYear(y-1)` / `setDate(d-5)` are modelled as
subtracting a fixed retention / cooldown duration from `now`; every property
proved about the predicates depends only on the `>=` comparison against the
computed threshold, exactly as in the source.

Remote I/O is modelled with oracles: paginated reads take a function from the
page/request index to the host's response, and writes are recorded as a trace
of API requests (`WriteOp`), each carrying the uris of one batched call.
-/

namespace SpotifyMirror

/-- A source playlist entry: track uri plus the `added_at` timestamp (ms). -/
structure SourceTrack where
  uri : String
  addedAt : Int
  deriving DecidableEq, Repr

/-- A recently-played feed entry: track uri plus `played_at` timestamp (ms). -/
structure PlayedTrack where
  uri : String
  playedAt : Int
  deriving DecidableEq, Repr

/-- A mirror playlist entry as fetched: uri plus zero-based position. -/
structure MirrorEntry where
  uri : String
  position : Nat
  deriving DecidableEq, Repr

/-- One batched write request against the mirror playlist. -/
inductive WriteOp where
  | remove (uris : List String)
  | add (uris : List String)
  deriving DecidableEq, Repr

/-- Retention window: the source's `setFullYear(getFullYear() - 1)`,
modelled as a fixed one-year duration in milliseconds. -/
def RETENTION_WINDOW : Int := 365 * 86400000

/-- Cooldown window: the source's `setDate(getDate() - 5)`, five days in ms. -/
def COOLDOWN_WINDOW : Int := 5 * 86400000

/-- `chunkSize = 100` splitting used by both client write functions and the
sync engine's add loop (`for (let i = 0; i < uris.length; i += 100)`). -/
def chunksOf100 (l : List String) : List (List String) :=
  match l with
  | [] => []
  | a :: rest => ((a :: rest).take 100) :: chunksOf100 (rest.drop 99)
termination_by l.length
decreasing_by simp; omega

/-- `addTracksToMirrorPlaylist` (spotify client): no-op on empty input,
otherwise one API add request per chunk of 100, preserving order. -/
def addTracksToMirrorPlaylist (trackUris : List String) : List WriteOp :=
  if trackUris.length = 0 then [] else (chunksOf100 trackUris).map WriteOp.add

/-- `removeTracksFromMirrorPlaylist` (spotify client): no-op on empty input,
otherwise one API remove request per chunk of 100. -/
def removeTracksFromMirrorPlaylist (trackUris : List String) : List WriteOp :=
  if trackUris.length = 0 then [] else (chunksOf100 trackUris).map WriteOp.remove

/-- `isAddedWithinLastYear`: threshold `oneYearAgo` computed from now. -/
def oneYearBefore (now : Int) : Int := now - RETENTION_WINDOW

/-- `isAddedWithinLastYear(addedAt)`: `addedAt >= oneYearAgo`. -/
def isAddedWithinLastYear (now addedAt : Int) : Bool :=
  decide (oneYearBefore now ≤ addedAt)

/-- Threshold `fiveDaysAgo` of `isPlayedRecentlyWithinLockPeriod`. -/
def fiveDaysBefore (now : Int) : Int := now - COOLDOWN_WINDOW

/-- `isPlayedRecentlyWithinLockPeriod(playedAt)`: `playedAt >= fiveDaysAgo`. -/
def isPlayedRecentlyWithinLockPeriod (now playedAt : Int) : Bool :=
  decide (fiveDaysBefore now ≤ playedAt)

/-- `tracksWithinLastYear`: source tracks passing the retention filter. -/
def tracksWithinLastYear (now : Int) (sourceTracks : List SourceTrack) :
    List SourceTrack :=
  sourceTracks.filter fun t => isAddedWithinLastYear now t.addedAt

/-- `recentlyPlayedUris`: uris of fetched consumption events still inside the
5-day lock period (the JS `Set` is modelled by the uri list; only membership
is ever used). -/
def recentlyPlayedUris (now : Int) (recentlyPlayedTracks : List PlayedTrack) :
    List String :=
  (recentlyPlayedTracks.filter fun t =>
    isPlayedRecentlyWithinLockPeriod now t.playedAt).map (·.uri)

/-- `eligibleTracks`: within-last-year tracks not in the lock set. -/
def eligibleTracks (now : Int) (sourceTracks : List SourceTrack)
    (recentlyPlayedTracks : List PlayedTrack) : List SourceTrack :=
  (tracksWithinLastYear now sourceTracks).filter fun t =>
    !(recentlyPlayedUris now recentlyPlayedTracks).contains t.uri

/-- `tracksToAdd`: eligible tracks whose uri is not currently in the mirror. -/
def tracksToAdd (now : Int) (sourceTracks : List SourceTrack)
    (recentlyPlayedTracks : List PlayedTrack) (mirrorUris : List String) :
    List SourceTrack :=
  (eligibleTracks now sourceTracks recentlyPlayedTracks).filter fun t =>
    !mirrorUris.contains t.uri

/-- `tracksToRemove`: mirror uris that are not in the eligible set. -/
def tracksToRemove (now : Int) (sourceTracks : List SourceTrack)
    (recentlyPlayedTracks : List PlayedTrack) (mirrorUris : List String) :
    List String :=
  mirrorUris.filter fun u =>
    !((eligibleTracks now sourceTracks recentlyPlayedTracks).map (·.uri)).contains u

/-- `sortedTracks`: eligible tracks sorted by `addedAt` descending
(`(a, b) => b.addedAt.getTime() - a.addedAt.getTime()`, a stable sort). -/
def sortedTracks (now : Int) (sourceTracks : List SourceTrack)
    (recentlyPlayedTracks : List PlayedTrack) : List SourceTrack :=
  (eligibleTracks now sourceTracks recentlyPlayedTracks).mergeSort
    fun a b => decide (b.addedAt ≤ a.addedAt)

/-- The write trace of `syncMirrorPlaylist`: if `toAdd` or `toRemove` is
nonempty, remove every current mirror uri, then add the sorted eligible uris
in chunks of 100; otherwise issue nothing. -/
def syncWrites (now : Int) (sourceTracks : List SourceTrack)
    (recentlyPlayedTracks : List PlayedTrack) (mirrorUris : List String) :
    List WriteOp :=
  if 0 < (tracksToAdd now sourceTracks recentlyPlayedTracks mirrorUris).length ∨
      0 < (tracksToRemove now sourceTracks recentlyPlayedTracks mirrorUris).length then
    (if 0 < mirrorUris.length then removeTracksFromMirrorPlaylist mirrorUris else []) ++
      ((chunksOf100 ((sortedTracks now sourceTracks recentlyPlayedTracks).map (·.uri))).map
        addTracksToMirrorPlaylist).flatten
  else []

/-- `syncMirrorPlaylist` as a whole run: the three fetches may fail
(`Except`); any fetch failure is rethrown before a single write happens.
Returns the `Promise<void>` payload together with the write trace. -/
def syncRun {ε : Type} (sourceE : Except ε (List SourceTrack))
    (playedE : Except ε (List PlayedTrack)) (mirrorE : Except ε (List String))
    (now : Int) : Except ε Unit × List WriteOp :=
  match sourceE with
  | .error e => (.error e, [])
  | .ok sourceTracks =>
    match playedE with
    | .error e => (.error e, [])
    | .ok recentlyPlayedTracks =>
      match mirrorE with
      | .error e => (.error e, [])
      | .ok mirrorUris =>
        (.ok (), syncWrites now sourceTracks recentlyPlayedTracks mirrorUris)

/-- Semantics of the write trace on the remote mirror playlist: a remove
request deletes every occurrence of each listed uri, an add request appends
in order. -/
def applyWrites (mirror : List String) : List WriteOp → List String
  | [] => mirror
  | .remove uris :: rest => applyWrites (mirror.filter fun u => !uris.contains u) rest
  | .add uris :: rest => applyWrites (mirror ++ uris) rest

/-- The mirror playlist contents after one successful `syncMirrorPlaylist`. -/
def mirrorAfterSync (now : Int) (sourceTracks : List SourceTrack)
    (recentlyPlayedTracks : List PlayedTrack) (mirrorUris : List String) :
    List String :=
  applyWrites mirrorUris (syncWrites now sourceTracks recentlyPlayedTracks mirrorUris)

/-- All uris removed by a trace, in request order. -/
def removedItems (trace : List WriteOp) : List String :=
  (trace.filterMap fun op =>
    match op with
    | .remove uris => some uris
    | .add _ => none).flatten

/-- All uris added by a trace, in request order. -/
def addedItems (trace : List WriteOp) : List String :=
  (trace.filterMap fun op =>
    match op with
    | .remove _ => none
    | .add uris => some uris).flatten

/-- One step of the JS `Map`-based dedup of `getRecentlyPlayedTracks`:
`map.set(uri, track)` keeps the insertion position of the first occurrence
but overwrites the stored value with the newest insertion. -/
def dedupInsert (acc : List PlayedTrack) (t : PlayedTrack) : List PlayedTrack :=
  if acc.any fun a => a.uri = t.uri then
    acc.map fun a => if a.uri = t.uri then t else a
  else acc ++ [t]

/-- `Array.from(new Map(tracks.map(t => [t.uri, t])).values())`. -/
def dedupByUri (tracks : List PlayedTrack) : List PlayedTrack :=
  tracks.foldl dedupInsert []

/-- The pagination loop of `getRecentlyPlayedTracks`. `host` maps the request
index to the host's response (a thrown error or a page whose items may have a
null track). The first argument is the remaining request budget
(`3 - requestCount`); then the request index, the collected tracks, and
`moreTracksAvailable`. -/
def getRecentLoop {ε : Type} (host : Nat → Except ε (List (Option PlayedTrack))) :
    Nat → Nat → List PlayedTrack → Bool → Except ε (List PlayedTrack)
  | 0, _, tracks, _ => .ok tracks
  | rem + 1, reqIdx, tracks, more =>
    if more && decide (tracks.length < 100) then
      match host reqIdx with
      | .error e => .error e
      | .ok items =>
        if items.length = 0 then
          getRecentLoop host rem (reqIdx + 1) tracks false
        else
          getRecentLoop host rem (reqIdx + 1) (tracks ++ items.filterMap id)
            (decide ((tracks ++ items.filterMap id).length < 100))
    else .ok tracks

/-- `getRecentlyPlayedTracks`: up to 3 paginated requests, then the Map-based
dedup; the surrounding catch rethrows, so a failed request propagates. -/
def getRecentlyPlayedTracks {ε : Type}
    (host : Nat → Except ε (List (Option PlayedTrack))) :
    Except ε (List PlayedTrack) :=
  (getRecentLoop host 3 0 [] true).map dedupByUri

/-- Pagination loop of `getSourcePlaylistTracks`: `pages k` is the host's
response at offset `100 * k`; items with a null track are skipped. The loop
repeats while a page has exactly 100 items. `fuel` bounds the number of
requests the run may issue; `none` means the loop did not finish within
`fuel` requests. -/
def fetchSourceLoop (pages : Nat → List (Option SourceTrack)) :
    Nat → Nat → List SourceTrack → Option (List SourceTrack)
  | 0, _, _ => none
  | fuel + 1, k, acc =>
    if (pages k).length = 100 then
      fetchSourceLoop pages fuel (k + 1) (acc ++ (pages k).filterMap id)
    else some (acc ++ (pages k).filterMap id)

/-- `getSourcePlaylistTracks` over a page oracle, with a request budget. -/
def getSourcePlaylistTracks (pages : Nat → List (Option SourceTrack))
    (fuel : Nat) : Option (List SourceTrack) :=
  fetchSourceLoop pages fuel 0 []

/-- The entries one mirror page contributes: null tracks are skipped but the
recorded position is `offset + i` with `i` the raw index inside the page. -/
def mirrorPageEntries (offset : Nat) (items : List (Option String)) :
    List MirrorEntry :=
  items.enum.filterMap fun p => p.2.map fun uri => MirrorEntry.mk uri (offset + p.1)

/-- Pagination loop of `getMirrorPlaylistTracks`, same stopping rule. -/
def fetchMirrorLoop (pages : Nat → List (Option String)) :
    Nat → Nat → List MirrorEntry → Option (List MirrorEntry)
  | 0, _, _ => none
  | fuel + 1, k, acc =>
    if (pages k).length = 100 then
      fetchMirrorLoop pages fuel (k + 1) (acc ++ mirrorPageEntries (100 * k) (pages k))
    else some (acc ++ mirrorPageEntries (100 * k) (pages k))

/-- `getMirrorPlaylistTracks` over a page oracle, with a request budget. -/
def getMirrorPlaylistTracks (pages : Nat → List (Option String))
    (fuel : Nat) : Option (List MirrorEntry) :=
  fetchMirrorLoop pages fuel 0 []

/-! Concrete inputs used to evaluate the embedded code at specific states. -/

/-- One day in milliseconds. -/
def DAY : Int := 86400000

/-- Source playlist: track `a` added before track `b`, both within the year
(times are relative to `now = 0`). -/
def srcAscending : List SourceTrack := [⟨"a", -1000⟩, ⟨"b", -500⟩]

/-- Source playlist with two entries for the same track uri. -/
def srcDup : List SourceTrack := [⟨"a", -100⟩, ⟨"a", -200⟩]

/-- Source playlist with a single track. -/
def srcSingle : List SourceTrack := [⟨"a", -100⟩]

/-- Recently-played host: one page, newest first, with two plays of the same
track: one 1 day ago and one 6 days ago; then no more pages. -/
def hostTwoPlays : Nat → Except Unit (List (Option PlayedTrack)) := fun i =>
  if i = 0 then .ok [some ⟨"a", -DAY⟩, some ⟨"a", -6 * DAY⟩] else .ok []

/-- Recently-played host: one good page, then every further request fails. -/
def hostFailsLater : Nat → Except Nat (List (Option PlayedTrack)) := fun i =>
  if i = 0 then .ok [some ⟨"a", 0⟩] else .error 7

/-- Source-page oracle: a single short page with one null item. -/
def pagesSourceShort : Nat → List (Option SourceTrack) := fun k =>
  if k = 0 then [some ⟨"s", -5⟩, none] else []

/-- Mirror-page oracle: a single short page, the first item null. -/
def pagesMirrorShort : Nat → List (Option String) := fun k =>
  if k = 0 then [none, some "m"] else []

/-- Source-page oracle that always answers with a full page of 100 items. -/
def pagesSourceFull : Nat → List (Option SourceTrack) := fun _ =>
  List.replicate 100 (some ⟨"s", 0⟩)

/-- Mirror-page oracle that always answers with a full page of 100 items. -/
def pagesMirrorFull : Nat → List (Option String) := fun _ =>
  List.replicate 100 (some "m")

/-! ### Helper lemmas -/

theorem contains_eq_decide_mem (l : List String) (u : String) :
    l.contains u = decide (u ∈ l) :=
  List.elem_eq_mem u l

theorem flatten_chunksOf100 (l : List String) : (chunksOf100 l).flatten = l := by
  induction l using chunksOf100.induct with
  | case1 => simp [chunksOf100]
  | case2 a rest ih =>
    rw [chunksOf100]
    simp only [List.flatten_cons, ih, List.take_succ_cons]
    simp [List.take_append_drop]

theorem chunksOf100_short (l : List String) (h1 : l ≠ []) (h2 : l.length ≤ 100) :
    chunksOf100 l = [l] := by
  match l with
  | [] => exact absurd rfl h1
  | a :: rest =>
    rw [chunksOf100]
    have hr : rest.length ≤ 99 := by simp at h2; omega
    rw [List.take_of_length_le h2, List.drop_eq_nil_of_le hr]
    simp [chunksOf100]

theorem mem_chunksOf100 {c : List String} {l : List String}
    (h : c ∈ chunksOf100 l) : c ≠ [] ∧ c.length ≤ 100 := by
  induction l using chunksOf100.induct with
  | case1 => simp [chunksOf100] at h
  | case2 a rest ih =>
    rw [chunksOf100] at h
    rcases List.mem_cons.mp h with h | h
    · subst h
      refine ⟨by simp [List.take_succ_cons], ?_⟩
      exact List.length_take_le 100 (a :: rest)
    · exact ih h

theorem chunksOf100_ne_nil {l : List String} (h : l ≠ []) :
    chunksOf100 l ≠ [] := by
  match l with
  | [] => exact absurd rfl h
  | a :: rest => rw [chunksOf100]; simp

theorem applyWrites_append (m : List String) (t1 t2 : List WriteOp) :
    applyWrites m (t1 ++ t2) = applyWrites (applyWrites m t1) t2 := by
  induction t1 generalizing m with
  | nil => rfl
  | cons op rest ih => cases op <;> simp [applyWrites, ih]

theorem applyWrites_adds (m : List String) (cs : List (List String)) :
    applyWrites m (cs.map WriteOp.add) = m ++ cs.flatten := by
  induction cs generalizing m with
  | nil => simp [applyWrites]
  | cons c cs ih => simp [applyWrites, ih]

theorem applyWrites_removes (m : List String) (cs : List (List String)) :
    applyWrites m (cs.map WriteOp.remove) =
      m.filter fun u => !cs.flatten.contains u := by
  induction cs generalizing m with
  | nil => simp [applyWrites]
  | cons c cs ih =>
    simp only [List.map_cons, applyWrites, ih, List.filter_filter]
    apply List.filter_congr
    intro u _
    simp [contains_eq_decide_mem, Bool.and_comm]

theorem addOps_flatten (us : List String) :
    ((chunksOf100 us).map addTracksToMirrorPlaylist).flatten =
      (chunksOf100 us).map WriteOp.add := by
  have h : ∀ cs : List (List String), (∀ c ∈ cs, c ≠ [] ∧ c.length ≤ 100) →
      (cs.map addTracksToMirrorPlaylist).flatten = cs.map WriteOp.add := by
    intro cs
    induction cs with
    | nil => intro _; rfl
    | cons c cs ih =>
      intro hmem
      obtain ⟨hc1, hc2⟩ := hmem c (List.mem_cons_self c cs)
      have hone : addTracksToMirrorPlaylist c = [WriteOp.add c] := by
        rw [addTracksToMirrorPlaylist, if_neg (by simpa using hc1),
          chunksOf100_short c hc1 hc2]
        rfl
      simp only [List.map_cons, List.flatten_cons, hone,
        ih fun d hd => hmem d (List.mem_cons_of_mem c hd)]
      rfl
  exact h _ fun c hc => mem_chunksOf100 hc

theorem removedItems_append (t1 t2 : List WriteOp) :
    removedItems (t1 ++ t2) = removedItems t1 ++ removedItems t2 := by
  simp [removedItems, List.filterMap_append]

theorem addedItems_append (t1 t2 : List WriteOp) :
    addedItems (t1 ++ t2) = addedItems t1 ++ addedItems t2 := by
  simp [addedItems, List.filterMap_append]

theorem removedItems_removeOps (cs : List (List String)) :
    removedItems (cs.map WriteOp.remove) = cs.flatten := by
  simp [removedItems, List.filterMap_map, Function.comp_def]

theorem removedItems_addOps (cs : List (List String)) :
    removedItems (cs.map WriteOp.add) = ([] : List String) := by
  simp [removedItems, List.filterMap_map, Function.comp_def]

theorem addedItems_addOps (cs : List (List String)) :
    addedItems (cs.map WriteOp.add) = cs.flatten := by
  simp [addedItems, List.filterMap_map, Function.comp_def]

theorem addedItems_removeOps (cs : List (List String)) :
    addedItems (cs.map WriteOp.remove) = ([] : List String) := by
  simp [addedItems, List.filterMap_map, Function.comp_def]

theorem syncWrites_eq (now : Int) (src : List SourceTrack)
    (played : List PlayedTrack) (m : List String) :
    syncWrites now src played m =
      if 0 < (tracksToAdd now src played m).length ∨
          0 < (tracksToRemove now src played m).length then
        (chunksOf100 m).map WriteOp.remove ++
          (chunksOf100 ((sortedTracks now src played).map (·.uri))).map WriteOp.add
      else [] := by
  rw [syncWrites]
  split
  · rw [addOps_flatten]
    congr 1
    match m with
    | [] => simp [chunksOf100]
    | a :: rest =>
      rw [if_pos (by simp), removeTracksFromMirrorPlaylist, if_neg (by simp)]
  · rfl

theorem mirrorFilter_self (m : List String) :
    (m.filter fun u => !m.contains u) = [] :=
  List.filter_eq_nil_iff.mpr fun u hu => by simp [contains_eq_decide_mem, hu]

theorem mirrorAfterSync_eq (now : Int) (src : List SourceTrack)
    (played : List PlayedTrack) (m : List String) :
    mirrorAfterSync now src played m =
      if 0 < (tracksToAdd now src played m).length ∨
          0 < (tracksToRemove now src played m).length then
        (sortedTracks now src played).map (·.uri)
      else m := by
  rw [mirrorAfterSync, syncWrites_eq]
  split
  · rw [applyWrites_append, applyWrites_removes, applyWrites_adds,
      flatten_chunksOf100, flatten_chunksOf100, mirrorFilter_self]
    rfl
  · rfl

theorem syncWrites_ne_nil_iff (now : Int) (src : List SourceTrack)
    (played : List PlayedTrack) (m : List String) :
    syncWrites now src played m ≠ [] ↔
      (0 < (tracksToAdd now src played m).length ∨
        0 < (tracksToRemove now src played m).length) := by
  rw [syncWrites_eq]
  split
  next h =>
    simp only [iff_true_intro h, iff_true]
    intro he
    obtain ⟨hrem, hadd⟩ := List.append_eq_nil.mp he
    rcases h with h | h
    · obtain ⟨t, ht⟩ := List.exists_mem_of_length_pos h
      have hel : t ∈ eligibleTracks now src played := List.mem_of_mem_filter ht
      have hsort : t ∈ sortedTracks now src played :=
        List.mem_mergeSort.mpr hel
      have hus : t.uri ∈ (sortedTracks now src played).map (·.uri) :=
        List.mem_map_of_mem _ hsort
      have : chunksOf100 ((sortedTracks now src played).map (·.uri)) ≠ [] :=
        chunksOf100_ne_nil (List.ne_nil_of_mem hus)
      exact this (List.map_eq_nil_iff.mp hadd)
    · obtain ⟨u, hu⟩ := List.exists_mem_of_length_pos h
      have hm : u ∈ m := List.mem_of_mem_filter hu
      have : chunksOf100 m ≠ [] := chunksOf100_ne_nil (List.ne_nil_of_mem hm)
      exact this (List.map_eq_nil_iff.mp hrem)
  next h => simp [h]

theorem sortedTracks_perm (now : Int) (src : List SourceTrack)
    (played : List PlayedTrack) :
    (sortedTracks now src played).Perm (eligibleTracks now src played) :=
  List.mergeSort_perm _ _

theorem sortedTracks_pairwise (now : Int) (src : List SourceTrack)
    (played : List PlayedTrack) :
    (sortedTracks now src played).Pairwise fun a b => b.addedAt ≤ a.addedAt := by
  have h := @List.sorted_mergeSort SourceTrack
    (fun a b => decide (b.addedAt ≤ a.addedAt))
    (fun a b c h1 h2 => by simp at h1 h2 ⊢; omega)
    (fun a b => by simp; omega) (eligibleTracks now src played)
  exact h.imp fun hab => by simpa using hab

theorem tracksToAdd_sorted_nil (now : Int) (src : List SourceTrack)
    (played : List PlayedTrack) :
    tracksToAdd now src played ((sortedTracks now src played).map (·.uri)) = [] := by
  rw [tracksToAdd]
  apply List.filter_eq_nil_iff.mpr
  intro t ht
  have hs : t ∈ sortedTracks now src played := List.mem_mergeSort.mpr ht
  have hu : t.uri ∈ (sortedTracks now src played).map (·.uri) :=
    List.mem_map_of_mem _ hs
  simp [contains_eq_decide_mem, hu]

theorem tracksToRemove_sorted_nil (now : Int) (src : List SourceTrack)
    (played : List PlayedTrack) :
    tracksToRemove now src played ((sortedTracks now src played).map (·.uri)) = [] := by
  rw [tracksToRemove]
  apply List.filter_eq_nil_iff.mpr
  intro u hu
  obtain ⟨t, ht, rfl⟩ := List.mem_map.mp hu
  have he : t ∈ eligibleTracks now src played := List.mem_mergeSort.mp ht
  have hm : t.uri ∈ (eligibleTracks now src played).map (·.uri) :=
    List.mem_map_of_mem _ he
  simp [contains_eq_decide_mem, hm]

theorem syncWrites_of_nil_diff (now : Int) (src : List SourceTrack)
    (played : List PlayedTrack) (m : List String)
    (h1 : tracksToAdd now src played m = [])
    (h2 : tracksToRemove now src played m = []) :
    syncWrites now src played m = [] := by
  rw [syncWrites_eq]
  simp [h1, h2]

/-! ### Claim theorems -/

/-- C9: the retention-eligibility predicate is inclusive at the boundary: a
source entry whose `addedAt` is exactly `now − RETENTION_WINDOW` is eligible,
and an entry one instant (millisecond) older is not. -/
theorem C9_eligibility_boundary (now : Int) :
    isAddedWithinLastYear now (now - RETENTION_WINDOW) = true ∧
      isAddedWithinLastYear now (now - RETENTION_WINDOW - 1) = false := by
  constructor
  · simp [isAddedWithinLastYear, oneYearBefore]
  · simp only [isAddedWithinLastYear, oneYearBefore, decide_eq_false_iff_not]
    omega

/-- C6: if any of the three fetches (source tracks, recently played tracks,
mirror tracks) fails, `syncMirrorPlaylist` rethrows the error and issues no
write: the write trace is empty, so the mirror is unchanged (the empty trace
applied to any mirror state is that state). -/
theorem C6_fetch_failure_aborts {ε : Type} (e : ε) (now : Int) :
    (∀ playedE mirrorE,
        syncRun (ε := ε) (.error e) playedE mirrorE now = (.error e, [])) ∧
      (∀ src mirrorE,
        syncRun (ε := ε) (.ok src) (.error e) mirrorE now = (.error e, [])) ∧
      (∀ src played,
        syncRun (ε := ε) (.ok src) (.ok played) (.error e) now = (.error e, [])) ∧
      (∀ mirror : List String, applyWrites mirror [] = mirror) :=
  ⟨fun _ _ => rfl, fun _ _ => rfl, fun _ _ => rfl, fun _ => rfl⟩

/-- C4 fails as stated: `syncMirrorPlaylist` returns `Promise<void>`, not a
`SyncResult`. Two successful runs whose fetched counts differ (one source
track versus none) produce identical return values, so the returned value
cannot carry a count of fetched (or eligible, locked, added, removed) items
or a rebuild flag. -/
theorem C4_counterexample :
    (syncRun (ε := Unit) (.ok srcSingle) (.ok []) (.ok []) 0).1 =
        (syncRun (ε := Unit) (.ok []) (.ok []) (.ok []) 0).1 ∧
      srcSingle.length ≠ ([] : List SourceTrack).length :=
  ⟨rfl, by decide⟩

/-- C4 amended: every successful call of the reconciliation operation returns
void — the unit value, identical across all successful runs — so the counts
of fetched, eligible, locked, added and removed items and the rebuild flag
are computed internally (and logged) but not returned. -/
theorem C4_void_result {ε : Type} (src src' : List SourceTrack)
    (played played' : List PlayedTrack) (mirror mirror' : List String)
    (now now' : Int) :
    (syncRun (ε := ε) (.ok src) (.ok played) (.ok mirror) now).1 = .ok () ∧
      (syncRun (ε := ε) (.ok src) (.ok played) (.ok mirror) now).1 =
        (syncRun (ε := ε) (.ok src') (.ok played') (.ok mirror') now').1 :=
  ⟨rfl, rfl⟩

/-- C5: calling the sync a second time on the mirror state produced by a
successful first call, with the same source, recently-played history, and
current time, computes an empty `toAdd`, an empty `toRemove`, and issues zero
write operations. -/
theorem C5_idempotent (now : Int) (src : List SourceTrack)
    (played : List PlayedTrack) (mirror : List String) :
    tracksToAdd now src played (mirrorAfterSync now src played mirror) = [] ∧
      tracksToRemove now src played (mirrorAfterSync now src played mirror) = [] ∧
      syncWrites now src played (mirrorAfterSync now src played mirror) = [] := by
  rw [mirrorAfterSync_eq]
  split
  next h =>
    exact ⟨tracksToAdd_sorted_nil now src played,
      tracksToRemove_sorted_nil now src played,
      syncWrites_of_nil_diff now src played _ (tracksToAdd_sorted_nil now src played)
        (tracksToRemove_sorted_nil now src played)⟩
  next h =>
    have h1 : tracksToAdd now src played mirror = [] := by
      rcases hx : tracksToAdd now src played mirror with _ | ⟨t, ts⟩
      · rfl
      · exact absurd (Or.inl (by simp [hx])) h
    have h2 : tracksToRemove now src played mirror = [] := by
      rcases hx : tracksToRemove now src played mirror with _ | ⟨u, us⟩
      · rfl
      · exact absurd (Or.inr (by simp [hx])) h
    exact ⟨h1, h2, syncWrites_of_nil_diff now src played mirror h1 h2⟩

/-- C3: if `toAdd` and `toRemove` are both empty the sync issues no write;
otherwise it performs a full rebuild: a sequence of remove requests covering
every uri currently in the mirror (not only those in `toRemove`), followed by
add requests whose items are exactly the eligible tracks sorted by descending
`addedAt`. -/
theorem C3_full_rebuild (now : Int) (src : List SourceTrack)
    (played : List PlayedTrack) (mirror : List String) :
    (tracksToAdd now src played mirror = [] ∧
        tracksToRemove now src played mirror = [] →
      syncWrites now src played mirror = []) ∧
      (¬(tracksToAdd now src played mirror = [] ∧
          tracksToRemove now src played mirror = []) →
        syncWrites now src played mirror =
            (chunksOf100 mirror).map WriteOp.remove ++
              (chunksOf100 ((sortedTracks now src played).map (·.uri))).map
                WriteOp.add ∧
          removedItems (syncWrites now src played mirror) = mirror ∧
          addedItems (syncWrites now src played mirror) =
            (sortedTracks now src played).map (·.uri) ∧
          (sortedTracks now src played).Perm (eligibleTracks now src played) ∧
          (sortedTracks now src played).Pairwise
            fun a b => b.addedAt ≤ a.addedAt) := by
  constructor
  · intro ⟨h1, h2⟩
    exact syncWrites_of_nil_diff now src played mirror h1 h2
  · intro h
    have hcond : 0 < (tracksToAdd now src played mirror).length ∨
        0 < (tracksToRemove now src played mirror).length := by
      rcases Decidable.not_and_iff_or_not.mp h with h' | h'
      · exact Or.inl (List.length_pos.mpr h')
      · exact Or.inr (List.length_pos.mpr h')
    have e1 : syncWrites now src played mirror =
        (chunksOf100 mirror).map WriteOp.remove ++
          (chunksOf100 ((sortedTracks now src played).map (·.uri))).map
            WriteOp.add := by
      rw [syncWrites_eq, if_pos hcond]
    refine ⟨e1, ?_, ?_, sortedTracks_perm now src played,
      sortedTracks_pairwise now src played⟩
    · rw [e1, removedItems_append, removedItems_removeOps, removedItems_addOps,
        flatten_chunksOf100, List.append_nil]
    · rw [e1, addedItems_append, addedItems_removeOps, addedItems_addOps,
        flatten_chunksOf100, List.nil_append]

unseal List.merge List.mergeSort chunksOf100 in
/-- Witness for C3 at a concrete rebuild: one eligible source track and an
empty mirror, so `toAdd` is nonempty and the rebuild shape applies. -/
theorem C3_full_rebuild_witness :
    ¬(tracksToAdd 0 srcSingle [] [] = [] ∧ tracksToRemove 0 srcSingle [] [] = []) ∧
      removedItems (syncWrites 0 srcSingle [] []) = [] ∧
      addedItems (syncWrites 0 srcSingle [] []) =
        (sortedTracks 0 srcSingle []).map (·.uri) :=
  ⟨by decide, ((C3_full_rebuild 0 srcSingle [] []).2 (by decide)).2.1,
    ((C3_full_rebuild 0 srcSingle [] []).2 (by decide)).2.2.1⟩

unseal List.merge List.mergeSort chunksOf100 in
/-- C1 fails as stated: with source `srcAscending` (track `a` added before
`b`, both eligible), nothing recently played, and the mirror currently
holding exactly the desired set but in ascending order `["a", "b"]`, the sync
sees empty `toAdd` and `toRemove`, performs no rebuild, and leaves the mirror
`["a", "b"]` — not the descending-`addedAt` order `["b", "a"]` the claim
requires for every mirror state, misordered ones included. -/
theorem C1_counterexample :
    mirrorAfterSync 0 srcAscending [] ["a", "b"] = ["a", "b"] ∧
      (sortedTracks 0 srcAscending []).map (·.uri) = ["b", "a"] ∧
      (["a", "b"] : List String) ≠ ["b", "a"] :=
  ⟨by decide, by decide, by decide⟩

/-- C1 amended: one successful sync always leaves the mirror holding exactly
the desired uri set (a uri is in the final mirror iff it is the uri of an
eligible, non-locked source track); and whenever the run issued any write (a
rebuild), the final mirror is exactly the eligible tracks ordered by
descending `addedAt`. A mirror already holding the desired set merely
misordered is left unchanged. -/
theorem C1_convergence_amended (now : Int) (src : List SourceTrack)
    (played : List PlayedTrack) (mirror : List String) :
    (∀ u, u ∈ mirrorAfterSync now src played mirror ↔
        u ∈ (eligibleTracks now src played).map (·.uri)) ∧
      (syncWrites now src played mirror ≠ [] →
        mirrorAfterSync now src played mirror =
            (sortedTracks now src played).map (·.uri) ∧
          (sortedTracks now src played).Pairwise
            fun a b => b.addedAt ≤ a.addedAt) := by
  constructor
  · intro u
    rw [mirrorAfterSync_eq]
    split
    next h =>
      exact ((sortedTracks_perm now src played).map (·.uri)).mem_iff
    next h =>
      have h1 : tracksToAdd now src played mirror = [] := by
        rcases hx : tracksToAdd now src played mirror with _ | ⟨t, ts⟩
        · rfl
        · exact absurd (Or.inl (by simp [hx])) h
      have h2 : tracksToRemove now src played mirror = [] := by
        rcases hx : tracksToRemove now src played mirror with _ | ⟨v, vs⟩
        · rfl
        · exact absurd (Or.inr (by simp [hx])) h
      constructor
      · intro hu
        have := List.filter_eq_nil_iff.mp h2 u hu
        simpa [contains_eq_decide_mem] using this
      · intro hu
        obtain ⟨t, ht, rfl⟩ := List.mem_map.mp hu
        have := List.filter_eq_nil_iff.mp h1 t ht
        simpa [contains_eq_decide_mem] using this
  · intro hw
    rw [mirrorAfterSync_eq,
      if_pos ((syncWrites_ne_nil_iff now src played mirror).mp hw)]
    exact ⟨rfl, sortedTracks_pairwise now src played⟩

unseal List.merge List.mergeSort chunksOf100 in
/-- Witness for C1 amended at a concrete rebuild: one eligible track, empty
mirror; the run writes and the final mirror is the sorted desired list. -/
theorem C1_convergence_amended_witness :
    syncWrites 0 srcSingle [] [] ≠ [] ∧
      mirrorAfterSync 0 srcSingle [] [] = (sortedTracks 0 srcSingle []).map (·.uri) :=
  ⟨by decide, ((C1_convergence_amended 0 srcSingle [] []).2 (by decide)).1⟩

unseal List.merge List.mergeSort chunksOf100 in
/-- C8 fails as stated: a source with two entries for the same uri
(`srcDup`) rebuilds the mirror to `["a", "a"]`, a duplicate; and a mirror
already containing a duplicate of the single desired track (`["a", "a"]`)
triggers no rebuild and keeps the duplicate. -/
theorem C8_counterexample :
    ¬(mirrorAfterSync 0 srcDup [] []).Nodup ∧
      ¬(mirrorAfterSync 0 srcSingle [] ["a", "a"]).Nodup :=
  ⟨by decide, by decide⟩

/-- C8 amended: after a successful run that issued writes (a rebuild), the
mirror contains no duplicate item provided the source collection itself
contains no duplicate uri; a source holding two entries for one item
produces duplicate mirror entries, and a run issuing no writes keeps any
pre-existing mirror duplicates. -/
theorem C8_no_duplicates_amended (now : Int) (src : List SourceTrack)
    (played : List PlayedTrack) (mirror : List String)
    (hsrc : (src.map (·.uri)).Nodup)
    (hw : syncWrites now src played mirror ≠ []) :
    (mirrorAfterSync now src played mirror).Nodup := by
  rw [mirrorAfterSync_eq,
    if_pos ((syncWrites_ne_nil_iff now src played mirror).mp hw)]
  have hsub : List.Sublist (eligibleTracks now src played) src :=
    (List.filter_sublist _).trans (List.filter_sublist _)
  have hel : ((eligibleTracks now src played).map (·.uri)).Nodup :=
    (hsub.map (·.uri)).nodup hsrc
  exact (((sortedTracks_perm now src played).map (·.uri)).symm.nodup_iff).mp hel

unseal List.merge List.mergeSort chunksOf100 in
/-- Witness for C8 amended: duplicate-free single-track source, empty mirror,
rebuild occurs, final mirror is duplicate-free. -/
theorem C8_no_duplicates_amended_witness :
    (srcSingle.map (·.uri)).Nodup ∧ syncWrites 0 srcSingle [] [] ≠ [] ∧
      (mirrorAfterSync 0 srcSingle [] []).Nodup :=
  ⟨by decide, by decide,
    C8_no_duplicates_amended 0 srcSingle [] [] (by decide) (by decide)⟩

/-- C2: the claim is right and the code is wrong. The host returns a single
page, newest first, with two plays of track `a`: one 1 day ago and one 6 days
ago. `getRecentlyPlayedTracks` does return exactly one event per item, but
its `Map`-based dedup keeps the last-inserted (oldest) event, `-6 * DAY`, not
the most recent one: with `now = 0` the lock set computed from the result is
empty even though the most recent play, 1 day ago, is inside the 5-day lock
period — contradicting the sync code's own comment that the set holds the
uris "still in the lock period". -/
theorem C2_dedup_keeps_oldest :
    getRecentlyPlayedTracks hostTwoPlays = .ok [⟨"a", -6 * DAY⟩] ∧
      recentlyPlayedUris 0 [⟨"a", -6 * DAY⟩] = [] ∧
      isPlayedRecentlyWithinLockPeriod 0 (-DAY) = true ∧
      -6 * DAY < -DAY := by
  refine ⟨rfl, by decide, by decide, by decide⟩

/-- The recently-played loop returns the collected tracks as soon as
`moreTracksAvailable` is false. -/
theorem getRecentLoop_false {ε : Type}
    (host : Nat → Except ε (List (Option PlayedTrack)))
    (rem reqIdx : Nat) (tracks : List PlayedTrack) :
    getRecentLoop host rem reqIdx tracks false = .ok tracks := by
  cases rem <;> simp [getRecentLoop]

/-- C7 fails as stated: the host returns one good page and then fails; the
catch in `getRecentlyPlayedTracks` rethrows, so the call raises the error
instead of returning the one consumption event collected so far. -/
theorem C7_counterexample :
    getRecentlyPlayedTracks hostFailsLater = .error 7 := rfl

/-- If the host answers every request the loop can still make without
throwing, the recently-played loop finishes with an `.ok` result from any
starting state. -/
theorem getRecentLoop_ok_of_host_ok {ε : Type}
    (host : Nat → Except ε (List (Option PlayedTrack))) :
    ∀ (rem reqIdx : Nat) (tracks : List PlayedTrack) (more : Bool),
      (∀ i, reqIdx ≤ i → i < reqIdx + rem → ∃ its, host i = .ok its) →
      ∃ ts, getRecentLoop host rem reqIdx tracks more = .ok ts := by
  intro rem
  induction rem with
  | zero => intro reqIdx tracks more _; exact ⟨tracks, rfl⟩
  | succ rem ih =>
    intro reqIdx tracks more hok
    rw [getRecentLoop]
    by_cases hc : (more && decide (tracks.length < 100)) = true
    · rw [if_pos hc]
      obtain ⟨its, hits⟩ := hok reqIdx (Nat.le_refl _) (by omega)
      rw [hits]
      by_cases hz : its.length = 0
      · simp only [if_pos hz]
        exact ih (reqIdx + 1) tracks false fun i h1 h2 => hok i (by omega) (by omega)
      · simp only [if_neg hz]
        exact ih (reqIdx + 1) _ _ fun i h1 h2 => hok i (by omega) (by omega)
    · rw [if_neg hc]
      exact ⟨tracks, rfl⟩

/-- C7 amended: the pagination of `getRecentlyPlayedTracks` makes up to three
requests, and at any point of it — any request index, any events collected so
far (below the 100-event cap), any remaining budget — an empty page stops
the loop and the call returns exactly the events collected so far
(deduplicated), while a host that answers every request without throwing can
never make the call raise; but a request that fails at any such point makes
the rethrowing catch propagate the error, discarding every event collected
from the earlier pages. The first conjunct is the loop's step on a nonempty
successful page, through which the stop/failure conjuncts reach every state
an actual run passes through; the last two conjuncts carry loop results to
the public function. -/
theorem C7_partial_results_amended {ε : Type}
    (host : Nat → Except ε (List (Option PlayedTrack))) (e : ε) :
    (∀ (rem reqIdx : Nat) (tracks : List PlayedTrack)
        (items : List (Option PlayedTrack)),
      host reqIdx = .ok items → items ≠ [] → tracks.length < 100 →
      getRecentLoop host (rem + 1) reqIdx tracks true =
        getRecentLoop host rem (reqIdx + 1) (tracks ++ items.filterMap id)
          (decide ((tracks ++ items.filterMap id).length < 100))) ∧
    (∀ (rem reqIdx : Nat) (tracks : List PlayedTrack),
      host reqIdx = .ok [] → tracks.length < 100 →
      getRecentLoop host (rem + 1) reqIdx tracks true = .ok tracks) ∧
    (∀ (rem reqIdx : Nat) (tracks : List PlayedTrack),
      host reqIdx = .error e → tracks.length < 100 →
      getRecentLoop host (rem + 1) reqIdx tracks true = .error e) ∧
    ((∀ i, i < 3 → ∃ its, host i = .ok its) →
      ∃ ts, getRecentlyPlayedTracks host = .ok ts) ∧
    (∀ ts, getRecentLoop host 3 0 [] true = .ok ts →
      getRecentlyPlayedTracks host = .ok (dedupByUri ts)) ∧
    (getRecentLoop host 3 0 [] true = .error e →
      getRecentlyPlayedTracks host = .error e) := by
  refine ⟨?_, ?_, ?_, ?_, ?_, ?_⟩
  · intro rem reqIdx tracks items h0 hne hlen
    have hlen0 : ¬items.length = 0 := by
      simpa [List.length_eq_zero] using hne
    rw [getRecentLoop]
    simp [h0, hlen0, hlen]
  · intro rem reqIdx tracks h0 hlen
    rw [getRecentLoop]
    simp [h0, hlen, getRecentLoop_false]
  · intro rem reqIdx tracks h0 hlen
    rw [getRecentLoop]
    simp [h0, hlen]
  · intro hok
    obtain ⟨ts, hts⟩ := getRecentLoop_ok_of_host_ok host 3 0 [] true
      fun i h1 h2 => hok i (by omega)
    exact ⟨dedupByUri ts, by rw [getRecentlyPlayedTracks, hts]; rfl⟩
  · intro ts hts
    rw [getRecentlyPlayedTracks, hts]
    rfl
  · intro hts
    rw [getRecentlyPlayedTracks, hts]
    rfl

/-- Witness for C7 amended at concrete hosts: with `hostTwoPlays` the empty
second page ends the run with the two collected events, deduplicated; with
`hostFailsLater` the failing second request discards the collected first
page and the call raises. -/
theorem C7_partial_results_amended_witness :
    hostTwoPlays 1 = .ok [] ∧
      getRecentlyPlayedTracks hostTwoPlays =
        .ok (dedupByUri [⟨"a", -DAY⟩, ⟨"a", -6 * DAY⟩]) ∧
      hostFailsLater 1 = .error 7 ∧
      getRecentlyPlayedTracks hostFailsLater = .error 7 := by
  have h1 := C7_partial_results_amended hostTwoPlays ()
  have h2 := C7_partial_results_amended hostFailsLater 7
  have e1 : getRecentLoop hostTwoPlays 3 0 [] true =
      .ok [⟨"a", -DAY⟩, ⟨"a", -6 * DAY⟩] := by
    rw [h1.1 2 0 [] [some ⟨"a", -DAY⟩, some ⟨"a", -6 * DAY⟩] rfl
      (by decide) (by decide)]
    exact h1.2.1 1 1 [⟨"a", -DAY⟩, ⟨"a", -6 * DAY⟩] rfl (by decide)
  have e2 : getRecentLoop hostFailsLater 3 0 [] true = .error 7 := by
    rw [h2.1 2 0 [] [some ⟨"a", 0⟩] rfl (by decide) (by decide)]
    exact h2.2.2.1 1 1 [⟨"a", 0⟩] rfl (by decide)
  exact ⟨rfl, h1.2.2.2.2.1 _ e1, rfl, h2.2.2.2.2.2 e2⟩

/-- Splitting the flattened image of `range (d + 2)` at its head. -/
theorem flatten_range_shift {α : Type} (f : Nat → List α) (d : Nat) :
    ((List.range (d + 2)).map f).flatten =
      f 0 ++ ((List.range (d + 1)).map fun j => f (j + 1)).flatten := by
  rw [show d + 2 = d + 1 + 1 from rfl, List.range_succ_eq_map]
  simp [List.map_map, Function.comp_def]

/-- If the pages at indices `k, …, k+d-1` are full (100 items) and the page
at `k+d` is short, the source pagination loop returns the accumulated tracks
plus every non-null track of pages `k` through `k+d`, in page order, provided
the request budget exceeds `d`. -/
theorem fetchSourceLoop_stops (pages : Nat → List (Option SourceTrack)) :
    ∀ (d fuel k : Nat) (acc : List SourceTrack),
      (∀ j, j < d → (pages (k + j)).length = 100) →
      (pages (k + d)).length < 100 → d < fuel →
      fetchSourceLoop pages fuel k acc =
        some (acc ++ ((List.range (d + 1)).map
          fun j => (pages (k + j)).filterMap id).flatten) := by
  intro d
  induction d with
  | zero =>
    intro fuel k acc _ hshort hfuel
    have hs : (pages k).length < 100 := by simpa using hshort
    match fuel, hfuel with
    | fuel + 1, _ =>
      rw [fetchSourceLoop, if_neg (by omega)]
      simp [List.range_succ]
  | succ d ih =>
    intro fuel k acc hfull hshort hfuel
    match fuel, hfuel with
    | fuel + 1, hfuel =>
      rw [fetchSourceLoop, if_pos (by simpa using hfull 0 (by omega))]
      rw [ih fuel (k + 1) (acc ++ (pages k).filterMap id)
        (fun j hj => by
          have := hfull (j + 1) (by omega)
          rwa [show k + (j + 1) = k + 1 + j by omega] at this)
        (by rwa [show k + 1 + d = k + (d + 1) by omega])
        (by omega)]
      rw [List.append_assoc, show d + 1 + 1 = d + 2 from rfl,
        flatten_range_shift (fun j => (pages (k + j)).filterMap id) d]
      simp only [Nat.add_zero]
      have hmap : List.map (fun j => (pages (k + 1 + j)).filterMap id)
            (List.range (d + 1)) =
          List.map (fun j => (pages (k + (j + 1))).filterMap id)
            (List.range (d + 1)) :=
        List.map_congr_left fun a _ => by
          rw [show k + 1 + a = k + (a + 1) by omega]
      rw [hmap]

/-- If every page the loop can reach within its budget is full, the source
pagination loop exhausts its budget without returning. -/
theorem fetchSourceLoop_none (pages : Nat → List (Option SourceTrack)) :
    ∀ (fuel k : Nat) (acc : List SourceTrack),
      (∀ j, j < fuel → (pages (k + j)).length = 100) →
      fetchSourceLoop pages fuel k acc = none := by
  intro fuel
  induction fuel with
  | zero => intro k acc _; rfl
  | succ fuel ih =>
    intro k acc hfull
    rw [fetchSourceLoop, if_pos (by simpa using hfull 0 (by omega))]
    exact ih (k + 1) _ fun j hj => by
      have := hfull (j + 1) (by omega)
      rwa [show k + (j + 1) = k + 1 + j by omega] at this

/-- Mirror analogue of `fetchSourceLoop_stops`. -/
theorem fetchMirrorLoop_stops (pages : Nat → List (Option String)) :
    ∀ (d fuel k : Nat) (acc : List MirrorEntry),
      (∀ j, j < d → (pages (k + j)).length = 100) →
      (pages (k + d)).length < 100 → d < fuel →
      fetchMirrorLoop pages fuel k acc =
        some (acc ++ ((List.range (d + 1)).map
          fun j => mirrorPageEntries (100 * (k + j)) (pages (k + j))).flatten) := by
  intro d
  induction d with
  | zero =>
    intro fuel k acc _ hshort hfuel
    have hs : (pages k).length < 100 := by simpa using hshort
    match fuel, hfuel with
    | fuel + 1, _ =>
      rw [fetchMirrorLoop, if_neg (by omega)]
      simp [List.range_succ]
  | succ d ih =>
    intro fuel k acc hfull hshort hfuel
    match fuel, hfuel with
    | fuel + 1, hfuel =>
      rw [fetchMirrorLoop, if_pos (by simpa using hfull 0 (by omega))]
      rw [ih fuel (k + 1) (acc ++ mirrorPageEntries (100 * k) (pages k))
        (fun j hj => by
          have := hfull (j + 1) (by omega)
          rwa [show k + (j + 1) = k + 1 + j by omega] at this)
        (by rwa [show k + 1 + d = k + (d + 1) by omega])
        (by omega)]
      rw [List.append_assoc, show d + 1 + 1 = d + 2 from rfl,
        flatten_range_shift
          (fun j => mirrorPageEntries (100 * (k + j)) (pages (k + j))) d]
      simp only [Nat.add_zero]
      have hmap : List.map
            (fun j => mirrorPageEntries (100 * (k + 1 + j)) (pages (k + 1 + j)))
            (List.range (d + 1)) =
          List.map
            (fun j => mirrorPageEntries (100 * (k + (j + 1))) (pages (k + (j + 1))))
            (List.range (d + 1)) :=
        List.map_congr_left fun a _ => by
          rw [show k + 1 + a = k + (a + 1) by omega]
      rw [hmap]

/-- Mirror analogue of `fetchSourceLoop_none`. -/
theorem fetchMirrorLoop_none (pages : Nat → List (Option String)) :
    ∀ (fuel k : Nat) (acc : List MirrorEntry),
      (∀ j, j < fuel → (pages (k + j)).length = 100) →
      fetchMirrorLoop pages fuel k acc = none := by
  intro fuel
  induction fuel with
  | zero => intro k acc _; rfl
  | succ fuel ih =>
    intro k acc hfull
    rw [fetchMirrorLoop, if_pos (by simpa using hfull 0 (by omega))]
    exact ih (k + 1) _ fun j hj => by
      have := hfull (j + 1) (by omega)
      rwa [show k + (j + 1) = k + 1 + j by omega] at this

/-- C10: the pagination loops of `getSourcePlaylistTracks` and
`getMirrorPlaylistTracks` stop exactly at the first page with fewer than 100
items. If that page has index `k`, the run finishes with any request budget
of at least `k + 1` requests — so a playlist of an exact multiple of 100
tracks needs one extra request for its empty page — returning every non-null
track of pages `0..k` in page order, while a budget of only `k` requests is
not enough; and against a host that keeps answering full pages of 100 the
loops never finish, whatever the budget. -/
theorem C10_pagination (pagesS : Nat → List (Option SourceTrack))
    (pagesM : Nat → List (Option String)) :
    (∀ k, (∀ j, j < k → (pagesS j).length = 100) → (pagesS k).length < 100 →
      (∀ fuel, k < fuel → getSourcePlaylistTracks pagesS fuel =
        some (((List.range (k + 1)).map
          fun j => (pagesS j).filterMap id).flatten)) ∧
      getSourcePlaylistTracks pagesS k = none) ∧
    ((∀ j, (pagesS j).length = 100) →
      ∀ fuel, getSourcePlaylistTracks pagesS fuel = none) ∧
    (∀ k, (∀ j, j < k → (pagesM j).length = 100) → (pagesM k).length < 100 →
      (∀ fuel, k < fuel → getMirrorPlaylistTracks pagesM fuel =
        some (((List.range (k + 1)).map
          fun j => mirrorPageEntries (100 * j) (pagesM j)).flatten)) ∧
      getMirrorPlaylistTracks pagesM k = none) ∧
    ((∀ j, (pagesM j).length = 100) →
      ∀ fuel, getMirrorPlaylistTracks pagesM fuel = none) := by
  refine ⟨fun k hfull hshort => ⟨fun fuel hfuel => ?_, ?_⟩,
    fun hfull fuel => ?_, fun k hfull hshort => ⟨fun fuel hfuel => ?_, ?_⟩,
    fun hfull fuel => ?_⟩
  · rw [getSourcePlaylistTracks,
      fetchSourceLoop_stops pagesS k fuel 0 [] (by simpa using hfull)
        (by simpa using hshort) hfuel]
    simp
  · exact fetchSourceLoop_none pagesS k 0 [] (by simpa using hfull)
  · exact fetchSourceLoop_none pagesS fuel 0 [] fun j _ => by
      simpa using hfull j
  · rw [getMirrorPlaylistTracks,
      fetchMirrorLoop_stops pagesM k fuel 0 [] (by simpa using hfull)
        (by simpa using hshort) hfuel]
    simp
  · exact fetchMirrorLoop_none pagesM k 0 [] (by simpa using hfull)
  · exact fetchMirrorLoop_none pagesM fuel 0 [] fun j _ => by
      simpa using hfull j

/-- Witness for C10 at concrete hosts: a single short page (with a null item,
which is skipped, and positions taken from the raw page index) terminates in
one request and fails with a zero-request budget; all-full-page hosts return
no result at a sample budget of 7 requests. -/
theorem C10_pagination_witness :
    (pagesSourceShort 0).length < 100 ∧ (pagesMirrorShort 0).length < 100 ∧
      getSourcePlaylistTracks pagesSourceShort 1 = some [⟨"s", -5⟩] ∧
      getSourcePlaylistTracks pagesSourceShort 0 = none ∧
      getMirrorPlaylistTracks pagesMirrorShort 1 = some [⟨"m", 1⟩] ∧
      getSourcePlaylistTracks pagesSourceFull 7 = none ∧
      getMirrorPlaylistTracks pagesMirrorFull 7 = none := by
  have hS := (C10_pagination pagesSourceShort pagesMirrorShort).1 0
    (fun j hj => absurd hj (Nat.not_lt_zero j)) (by decide)
  have hM := (C10_pagination pagesSourceShort pagesMirrorShort).2.2.1 0
    (fun j hj => absurd hj (Nat.not_lt_zero j)) (by decide)
  have hFS := (C10_pagination pagesSourceFull pagesMirrorFull).2.1
    (fun j => by simp [pagesSourceFull]) 7
  have hFM := (C10_pagination pagesSourceFull pagesMirrorFull).2.2.2
    (fun j => by simp [pagesMirrorFull]) 7
  refine ⟨by decide, by decide, ?_, hS.2, ?_, hFS, hFM⟩
  · have := hS.1 1 (by omega)
    simpa [pagesSourceShort] using this
  · have := hM.1 1 (by omega)
    simpa [pagesMirrorShort, mirrorPageEntries] using this

end SpotifyMirror
